import Mathlib

/-!
Verification of the data-reshaping layer of the san-francisco-public-defenders
front-end.  The definitions below are a shallow embedding of the client-side
code: rows fetched from the hosted datastore are plain records, the lodash
combinators used by the views (groupBy, orderBy, minBy, uniqBy, debounce) are
embedded with their documented semantics, and nullable / falsy JavaScript
values are modelled with Option and explicit empty-string tests.
-/

namespace SFPD

/-- A row of the document_metadata table, one per
(officer x incident x source document) association.  Nullable columns are
Option; incident_type, incident_id and uid are non-null in every variant of
the row interfaces in the source. -/
structure DocRow where
  incident_id : String
  incident_type : String
  incident_date : Option String
  incident_year : Option String
  receive_date : Option String
  source : Option String
  ois_details : Option String
  incident_details : Option String
  uid : String
  officer_name : Option String
  star_no : Option String
  officer_agency : Option String
  post_uid : Option String
deriving DecidableEq, Inhabited

/-- A row of the post (employment span) table: start_date is a non-null
string, end_date is nullable (null marks an open-ended, current span), as in
the PostTableRow and PostRecord interfaces of the source. -/
structure PostRecord where
  post_uid : String
  officer_name : Option String
  agency_name : String
  start_date : String
  end_date : Option String
deriving DecidableEq, Inhabited

/-- JavaScript `x || d` applied to a nullable string: null and the empty
string are falsy and give the default. -/
def jsStrOr (x : Option String) (d : String) : String :=
  match x with
  | none => d
  | some s => if s = "" then d else s

/-- JavaScript `x || null` applied to a nullable string: the empty string is
falsy and collapses to null. -/
def jsOrNull (x : Option String) : Option String :=
  match x with
  | none => none
  | some s => if s = "" then none else some s

/-- JavaScript `!x` for a nullable string: true on null and on the empty
string. -/
def jsFalsyStr (x : Option String) : Bool :=
  match x with
  | none => true
  | some s => s = ""

/-- Append x to the group keyed k, or start a new group at the end; helper
for the embedding of lodash groupBy. -/
def insertGrouped {α : Type} (k : String) (x : α) :
    List (String × List α) → List (String × List α)
  | [] => [(k, [x])]
  | (k2, xs) :: rest =>
    if k2 = k then (k2, xs ++ [x]) :: rest else (k2, xs) :: insertGrouped k x rest

/-- Lodash groupBy: the list of (key, group) pairs, keys in first-occurrence
order, each group preserving the input order of its rows. -/
def groupByKey {α : Type} (key : α → String) (l : List α) : List (String × List α) :=
  l.foldl (fun g x => insertGrouped (key x) x g) []

/-- Concatenation of all groups, in group order. -/
def ungroup {α : Type} : List (String × List α) → List α
  | [] => []
  | p :: g => p.2 ++ ungroup g

/-- The comparison used by lodash orderBy on a single iteratee: ascending or
descending order on the projected key. -/
def keyLe {α κ : Type} [LinearOrder κ] (key : α → κ) : Bool → α → α → Prop
  | false, a, b => key a ≤ key b
  | true, a, b => key b ≤ key a

instance keyLeDecidable {α κ : Type} [LinearOrder κ] (key : α → κ) :
    (desc : Bool) → DecidableRel (keyLe key desc)
  | false => fun a b => inferInstanceAs (Decidable (key a ≤ key b))
  | true => fun a b => inferInstanceAs (Decidable (key b ≤ key a))

instance keyLeTotal {α κ : Type} [LinearOrder κ] (key : α → κ) (desc : Bool) :
    IsTotal α (keyLe key desc) := by
  constructor
  intro a b
  cases desc
  · exact le_total (key a) (key b)
  · exact le_total (key b) (key a)

instance keyLeTrans {α κ : Type} [LinearOrder κ] (key : α → κ) (desc : Bool) :
    IsTrans α (keyLe key desc) := by
  constructor
  intro a b c hab hbc
  cases desc
  · exact le_trans (α := κ) hab hbc
  · exact le_trans (α := κ) hbc hab

/-- Lodash `_.orderBy(l, [key], [direction])`: a stable sort of l by the
projected key in the given direction (desc = true for descending).  Lodash
documents sortBy/orderBy as a stable sort, so it is embedded as insertion
sort, the canonical stable sort: elements with equal keys keep their input
order. -/
def orderBy {α κ : Type} [LinearOrder κ] (key : α → κ) (desc : Bool) (l : List α) : List α :=
  l.insertionSort (keyLe key desc)

/-- Lodash `_.minBy(l, iteratee)` specialised to the start_date iteratee used
by the source: the first element with the strictly smallest start_date, none
on the empty list. -/
def minByStart (l : List PostRecord) : Option PostRecord :=
  l.foldl
    (fun acc p =>
      match acc with
      | none => some p
      | some q => if p.start_date < q.start_date then some p else some q)
    none

/-- JavaScript `[...new Set(xs)]`: deduplication keeping first occurrences. -/
def jsSetDedup : List String → List String
  | [] => []
  | x :: xs => x :: jsSetDedup (xs.filter (fun y => y ≠ x))
termination_by l => l.length
decreasing_by
  simp only [List.length_cons]
  exact Nat.lt_succ_of_le (List.length_filter_le _ _)

/-- An officer entry of a case aggregate, as built by the CaseList views:
name, star number and agency are copied raw from the row (star_no is kept as
the raw nullable string, no Number conversion happens in that code path). -/
structure CaseOfficer where
  uid : String
  name : Option String
  starNo : Option String
  agency : Option String
deriving DecidableEq, Inhabited

/-- A case aggregate as built by grouping document rows by incident_id. -/
structure Case where
  incident_id : String
  incident_type : String
  incident_date : Option String
  incident_year : Option String
  receive_date : Option String
  source : Option String
  ois_details : Option String
  incident_details : Option String
  officers : List CaseOfficer
deriving DecidableEq, Inhabited

/-- Lodash `_.uniqBy(l, uid)` on case-officer entries: keeps the first entry
for each uid, in input order.  Used by the render paths (CaseProfile and the
card variant of renderCase) to display the distinct officers of a case. -/
def uniqByUid : List CaseOfficer → List CaseOfficer
  | [] => []
  | x :: xs => x :: uniqByUid (xs.filter (fun y => y.uid ≠ x.uid))
termination_by l => l.length
decreasing_by
  simp only [List.length_cons]
  exact Nat.lt_succ_of_le (List.length_filter_le _ _)

/-- One case aggregate from a group of rows sharing an incident_id: shared
metadata is taken from the first row of the group (incidents[0]) and the
officers list maps every row of the group to an officer entry — no
deduplication happens here. -/
def caseOfGroup (incident_id : String) (incidents : List DocRow) : Case :=
  let first := incidents.headI
  { incident_id := incident_id
    incident_type := first.incident_type
    incident_date := first.incident_date
    incident_year := first.incident_year
    receive_date := first.receive_date
    source := first.source
    ois_details := first.ois_details
    incident_details := first.incident_details
    officers := incidents.map (fun inc =>
      { uid := inc.uid
        name := inc.officer_name
        starNo := inc.star_no
        agency := inc.officer_agency }) }

/-- Case aggregation of CaseList loadInitialData: group the document rows by
incident_id and build one case aggregate per group. -/
def processedCases (documents : List DocRow) : List Case :=
  (groupByKey (fun d => d.incident_id) documents).map (fun g => caseOfGroup g.1 g.2)

/-- JavaScript `x ? Number(x) : null` applied to the star-number column:
null and the empty string are falsy and give null; otherwise the string is
parsed as a decimal integer (the star numbers this is applied to are decimal
digit strings; unparsable input, NaN in JS, is modelled as null as in the
isNaN-checking variant of the source). -/
def parseStarNo (x : Option String) : Option Int :=
  match x with
  | none => none
  | some s => if s = "" then none else s.toInt?

/-- An incident entry of an officer aggregate (the Incident interface of the
source), produced by mapping a document row. -/
structure Incident where
  incident_id : String
  incident_type : String
  incident_date : Option String
  source : Option String
  officer_name : Option String
  star_no : Option Int
  officer_agency : Option String
  uid : String
  post_uid : Option String
  ois_details : Option String
  incident_details : Option String
  incident_uid : String
deriving DecidableEq, Inhabited

/-- The row-to-incident mapping used inside the officer aggregations
(incident_uid is set to the row's incident_id). -/
def rowToIncident (inc : DocRow) : Incident :=
  { incident_id := inc.incident_id
    incident_type := inc.incident_type
    incident_date := inc.incident_date
    source := inc.source
    officer_name := inc.officer_name
    star_no := parseStarNo inc.star_no
    officer_agency := inc.officer_agency
    uid := inc.uid
    post_uid := inc.post_uid
    ois_details := inc.ois_details
    incident_details := inc.incident_details
    incident_uid := inc.incident_id }

/-- An officer aggregate (the Officer interface of the source). -/
structure Officer where
  uid : String
  name : String
  starNo : Option Int
  agency : String
  incidentCount : Nat
  incidents : List Incident
  postHistory : List PostRecord
  currentPost : Option PostRecord
  serviceStartDate : Option String
deriving DecidableEq, Inhabited

/-- Officer aggregate of the OfficerList roster view (processedOfficers in
OfficerList.tsx) for one uid group: resolve the group's post records by
matching post_uid against any of the officer's rows, overwrite their
officer_name with the first row's name, sort them by start_date descending,
and derive currentPost as the FIRST entry of that descending order
(sortedPosts[0] || null, regardless of end_date) and serviceStartDate as
minBy start_date with a falsy-collapsing `|| null`. -/
def processOfficerGroup (postRecords : List PostRecord) (uid : String)
    (incidents : List DocRow) : Officer :=
  let firstIncident := incidents.headI
  let officerPostRecords :=
    (postRecords.filter
      (fun post => incidents.any (fun inc => inc.post_uid == some post.post_uid))).map
      (fun post => { post with officer_name := firstIncident.officer_name })
  let sortedPosts := orderBy (fun p : PostRecord => p.start_date) true officerPostRecords
  { uid := uid
    name := jsStrOr firstIncident.officer_name ""
    starNo := parseStarNo firstIncident.star_no
    agency := jsStrOr firstIncident.officer_agency "SFPD"
    incidentCount := incidents.length
    incidents := incidents.map rowToIncident
    postHistory := sortedPosts
    currentPost := sortedPosts.head?
    serviceStartDate :=
      if sortedPosts.length > 0 then
        jsOrNull ((minByStart sortedPosts).map (fun p => p.start_date))
      else none }

/-- Officer roster aggregation of OfficerList.tsx: group rows by uid and
process each group against the fetched post records. -/
def processedOfficers (documents : List DocRow) (postRecords : List PostRecord) :
    List Officer :=
  (groupByKey (fun d => d.uid) documents).map
    (fun g => processOfficerGroup postRecords g.1 g.2)

/-- Officer built by handleOfficerFromCase (case drill-down, app page):
posts are sorted ascending by start_date and reversed, currentPost is the
first post of that order with a falsy (null or empty) end_date — or null —
and serviceStartDate is minBy start_date with the same `|| null` fallback;
postHistory keeps the fetch order. -/
def officerFromCase (uid : String) (documents : List DocRow)
    (postData : List PostRecord) : Officer :=
  let sortedPosts := (orderBy (fun p : PostRecord => p.start_date) false postData).reverse
  { uid := uid
    name := jsStrOr documents.headI.officer_name ""
    starNo := parseStarNo documents.headI.star_no
    agency := jsStrOr documents.headI.officer_agency "SFPD"
    incidentCount := documents.length
    incidents := documents.map rowToIncident
    postHistory := postData
    currentPost := sortedPosts.find? (fun p => jsFalsyStr p.end_date)
    serviceStartDate :=
      if sortedPosts.length > 0 then
        jsOrNull ((minByStart sortedPosts).map (fun p => p.start_date))
      else none }

/-- Officer aggregate of the card-based roster variant (part_005) for one
uid group: posts are resolved by the FIRST row's post_uid only, sorted
ascending by start_date; currentPost is the last entry of that order and
serviceStartDate the first entry's start_date (no falsy fallback). -/
def processOfficerGroupCard (postRecords : List PostRecord) (uid : String)
    (incidents : List DocRow) : Officer :=
  let firstIncident := incidents.headI
  let officerPostRecords :=
    postRecords.filter (fun post => firstIncident.post_uid == some post.post_uid)
  let sortedPostRecords :=
    orderBy (fun p : PostRecord => p.start_date) false officerPostRecords
  { uid := uid
    name := jsStrOr firstIncident.officer_name ""
    starNo := parseStarNo firstIncident.star_no
    agency := jsStrOr firstIncident.officer_agency "SFPD"
    incidentCount := incidents.length
    incidents := incidents.map rowToIncident
    postHistory := sortedPostRecords
    currentPost := sortedPostRecords.getLast?
    serviceStartDate :=
      if sortedPostRecords.length > 0 then
        some sortedPostRecords.headI.start_date
      else none }

/-- Card-based roster aggregation (part_005 processedOfficers). -/
def processedOfficersCard (documents : List DocRow) (postRecords : List PostRecord) :
    List Officer :=
  (groupByKey (fun d => d.uid) documents).map
    (fun g => processOfficerGroupCard postRecords g.1 g.2)

/-- Modelled from the spec: the minimum start date across a post history
(section 4.2 of the spec), used as the specification-side value that the
derived serviceStartDate is compared against. -/
def specMinStartDate (history : List PostRecord) : Option String :=
  match history with
  | [] => none
  | p :: rest => some (rest.foldl (fun m q => min m q.start_date) p.start_date)

/-- A row of the document_text table returned by the text-search query. -/
structure TextRow where
  sha1 : String
  page_content : String
  page_number : Nat
deriving DecidableEq, Inhabited

/-- A (sha1, incident_id) pair of the metadata join query. -/
structure MetaRow where
  sha1 : String
  incident_id : String
deriving DecidableEq, Inhabited

/-- A text-search hit as stored in the textMatches map (the SearchMatch
interface of the source). -/
structure SearchMatch where
  text : String
  pageNumber : Nat
  sha1 : String
deriving DecidableEq, Inhabited

/-- The outcome of one datastore query: data rows, or an error carrying the
datastore error code (code 57014 is the query-timeout condition). -/
inductive QueryResult (α : Type) where
  | ok (data : List α)
  | err (code : String)
deriving DecidableEq, Inhabited

/-- The datastore as seen by one searchDocuments run: the text-search query
(as a function of the built search phrase and of the attempt number, so
retries can observe different outcomes) and the metadata join keyed by the
deduplicated sha1 list. -/
structure Datastore where
  textSearch : String → Nat → QueryResult TextRow
  metadataBySha1 : List String → QueryResult MetaRow

/-- The observable effect of one searchDocuments invocation: how many
text-search and metadata queries were issued, the value setTextMatches was
called with (none when the error path skipped it), and the user-visible
error message state (represented by the datastore error code). -/
structure SearchRun where
  textQueries : Nat
  metaQueries : Nat
  matchesSet : Option (List (String × List SearchMatch))
  errorMsg : Option String
deriving DecidableEq, Inhabited

/-- The search phrase built from the term:
term.split(' ').map(w => w + ':*').join(' & '). -/
def buildSearchPhrase (term : String) : String :=
  String.intercalate " & " ((term.splitOn " ").map (fun w => w ++ ":*"))

/-- Substring test on character lists (JavaScript String.includes). -/
def charsStartWith : List Char → List Char → Bool
  | [], _ => true
  | _ :: _, [] => false
  | a :: as, b :: bs => a = b && charsStartWith as bs

/-- JavaScript hay.includes(needle). -/
def jsIncludes (hay needle : String) : Bool :=
  go needle.toList hay.toList
where
  go (needle : List Char) : List Char → Bool
    | [] => charsStartWith needle []
    | c :: rest => charsStartWith needle (c :: rest) || go needle rest

/-- Drop the empty strings a character-by-character whitespace split leaves
between consecutive separators, keeping a last-position empty (from trailing
whitespace). -/
def collapseMid : List String → List String
  | [] => []
  | [y] => [y]
  | y :: rest => if y = "" then collapseMid rest else y :: collapseMid rest

/-- JavaScript content.split on a whitespace run: maximal non-whitespace
runs, with an empty first (last) element when the string starts (ends) with
whitespace, and a single empty string for the empty input. -/
def splitWs (s : String) : List String :=
  match s.split Char.isWhitespace with
  | [] => []
  | first :: rest => first :: collapseMid rest

/-- JavaScript l.slice(start, stop) for non-negative clamped indices: the
elements with indices in the interval from start (inclusive) to stop
(exclusive). -/
def jsSlice {α : Type} (l : List α) (start stop : Nat) : List α :=
  (l.drop start).take (stop - start)

/-- The context-window builder of searchDocuments applied to one text row:
split the page content on whitespace, find the first word whose lowercase
form contains the lowercase term, and join the window of 5 words before to 6
words after that word; no match yields no entry. -/
def buildMatch (term : String) (row : TextRow) : Option SearchMatch :=
  let words := splitWs row.page_content
  match words.findIdx? (fun w => jsIncludes w.toLower term.toLower) with
  | none => none
  | some termIndex =>
    let start := termIndex - 5
    let stop := min words.length (termIndex + 6)
    some
      { text := String.intercalate " " (jsSlice words start stop) ++ "..."
        pageNumber := row.page_number
        sha1 := row.sha1 }

/-- JavaScript Map construction from (sha1, incident_id) entries followed by
get: for duplicate keys the last entry wins. -/
def mapGet (entries : List (String × String)) (k : String) : Option String :=
  (entries.reverse.find? (fun e => e.1 == k)).map (fun e => e.2)

/-- The matches map built by the forEach loop of searchDocuments: for each
result row look its sha1 up in the metadata map (falsy incident ids are
skipped), build the context window (rows where the term is not found are
skipped) and push the match into the map under the incident id, keys in
insertion order. -/
def buildMatches (term : String) (metaMap : List (String × String))
    (rows : List TextRow) : List (String × List SearchMatch) :=
  rows.foldl
    (fun acc row =>
      match mapGet metaMap row.sha1 with
      | none => acc
      | some incidentId =>
        if incidentId = "" then acc
        else
          match buildMatch term row with
          | none => acc
          | some m => insertGrouped incidentId m acc)
    []

/-- The body of searchDocuments from the text-search query on, with the
retry-on-timeout recursion: an error with code 57014 and retryCount < 2
re-runs the whole body with retryCount + 1 (accumulating the issued query
count); any other error becomes the user-visible error state; empty results
clear the matches; otherwise the metadata join runs and the matches map is
built and set. -/
def searchFrom (ds : Datastore) (term : String) (retryCount : Nat) : SearchRun :=
  match ds.textSearch (buildSearchPhrase term) retryCount with
  | .err c =>
    if h : c = "57014" ∧ retryCount < 2 then
      let r := searchFrom ds term (retryCount + 1)
      { r with textQueries := r.textQueries + 1 }
    else { textQueries := 1, metaQueries := 0, matchesSet := none, errorMsg := some c }
  | .ok rows =>
    if rows.length = 0 then
      { textQueries := 1, metaQueries := 0, matchesSet := some [], errorMsg := none }
    else
      let sha1s := jsSetDedup (rows.map (fun r => r.sha1))
      match ds.metadataBySha1 sha1s with
      | .err c =>
        { textQueries := 1, metaQueries := 1, matchesSet := none, errorMsg := some c }
      | .ok metaRows =>
        let metaMap := metaRows.map (fun m => (m.sha1, m.incident_id))
        { textQueries := 1
          metaQueries := 1
          matchesSet := some (buildMatches term metaMap rows)
          errorMsg := none }
termination_by 3 - retryCount
decreasing_by
  omega

/-- searchDocuments(term): terms that are falsy or shorter than 3
characters clear the text-match map and return before any query is issued;
otherwise the query-and-retry body runs with retryCount 0. -/
def searchDocuments (ds : Datastore) (term : String) : SearchRun :=
  if term = "" ∨ term.length < 3 then
    { textQueries := 0, metaQueries := 0, matchesSet := some [], errorMsg := none }
  else searchFrom ds term 0

/-- Trailing-edge debounce (lodash _.debounce with a 300 ms wait, as used on
searchDocuments): given the timestamped invocation events in time order, an
invocation fires only if the next one arrives at least `wait` ms later; the
last invocation always fires.  Every earlier event superseded within the
wait window is cancelled, which also models the effect-cleanup cancel call
that runs on each search-term change. -/
def debounceFires (wait : Nat) : List (Nat × String) → List (Nat × String)
  | [] => []
  | [e] => [e]
  | e1 :: e2 :: rest =>
    if e2.1 - e1.1 < wait then debounceFires wait (e2 :: rest)
    else e1 :: debounceFires wait (e2 :: rest)

/-- The searches whose responses reach the visible text-match state: one
searchDocuments run per debounce firing (the UI is single threaded, so each
fired run applies its own response). -/
def appliedSearches (ds : Datastore) (events : List (Nat × String)) : List SearchRun :=
  (debounceFires 300 events).map (fun e => searchDocuments ds e.2)

/-- The per-view UI state of the case roster (CaseList.tsx): search term,
the three discrete filters, sort field and direction, and pagination. -/
structure CaseViewState where
  searchTerm : String
  incidentTypeFilter : Option String
  yearFilter : Option String
  sourceFilter : Option String
  sortField : String
  sortDescending : Bool
  currentPage : Nat
  itemsPerPage : Nat
deriving DecidableEq, Inhabited

/-- Search input onChange: set the term and reset to page 1. -/
def onSearchChange (s : CaseViewState) (term : String) : CaseViewState :=
  { s with searchTerm := term, currentPage := 1 }

/-- Page-size select onChange: set the size and reset to page 1. -/
def onItemsPerPageChange (s : CaseViewState) (n : Nat) : CaseViewState :=
  { s with itemsPerPage := n, currentPage := 1 }

/-- Incident-type filter row onClick: toggle the filter value; the handler
does not touch currentPage. -/
def onIncidentTypeToggle (s : CaseViewState) (t : String) : CaseViewState :=
  { s with incidentTypeFilter := if s.incidentTypeFilter = some t then none else some t }

/-- Year filter row onClick: toggle the filter value; no page change. -/
def onYearToggle (s : CaseViewState) (y : String) : CaseViewState :=
  { s with yearFilter := if s.yearFilter = some y then none else some y }

/-- Source filter row onClick: toggle the filter value; no page change. -/
def onSourceToggle (s : CaseViewState) (src : String) : CaseViewState :=
  { s with sourceFilter := if s.sourceFilter = some src then none else some src }

/-- The clear-all-filters button: null all three filters; no page change. -/
def clearAllFilters (s : CaseViewState) : CaseViewState :=
  { s with incidentTypeFilter := none, yearFilter := none, sourceFilter := none }

/-- handleSort: toggle the direction on the active field, else select the
field ascending; no page change. -/
def handleSort (s : CaseViewState) (field : String) : CaseViewState :=
  if s.sortField = field then { s with sortDescending := !s.sortDescending }
  else { s with sortField := field, sortDescending := false }

/-- Math.ceil(totalItems / pageSize), the totalPages computation of every
list view. -/
def totalPages (totalItems pageSize : Nat) : Nat :=
  (totalItems + pageSize - 1) / pageSize

/-- The page slice of the list views:
l.slice((page - 1) * itemsPerPage, page * itemsPerPage) with 1-based page
indices. -/
def paginate {α : Type} (l : List α) (page itemsPerPage : Nat) : List α :=
  jsSlice l ((page - 1) * itemsPerPage) (page * itemsPerPage)

/-- Sample document row: officer o1 involved in incident i1, employment link
p1. -/
def docRowA : DocRow :=
  { incident_id := "i1"
    incident_type := "firearm"
    incident_date := some "2019-05-01"
    incident_year := some "2019"
    receive_date := none
    source := some "CPRA"
    ois_details := none
    incident_details := none
    uid := "o1"
    officer_name := some "Smith"
    star_no := some "123"
    officer_agency := some "SFPD"
    post_uid := some "p1" }

/-- Sample second row for the same incident and the same officer, from a
different source document. -/
def docRowB : DocRow :=
  { docRowA with source := some "SB1421" }

/-- Sample closed employment span: p1 ended on 2020-01-01. -/
def postClosed : PostRecord :=
  { post_uid := "p1"
    officer_name := some "Smith"
    agency_name := "SFPD"
    start_date := "2018-01-01"
    end_date := some "2020-01-01" }

/-- Sample post record whose start_date is the empty string (still an open
span). -/
def postEmptyStart : PostRecord :=
  { post_uid := "p1"
    officer_name := some "Smith"
    agency_name := "SFPD"
    start_date := ""
    end_date := none }

/-- A datastore that answers every query with an empty result set. -/
def trivialDs : Datastore :=
  { textSearch := fun _ _ => .ok []
    metadataBySha1 := fun _ => .ok [] }

/-- A datastore whose text search always reports the query-timeout code. -/
def timeoutDs : Datastore :=
  { textSearch := fun _ _ => .err "57014"
    metadataBySha1 := fun _ => .ok [] }

/-- A case-view state sitting on page 2 with no active filters. -/
def caseStateOnPage2 : CaseViewState :=
  { searchTerm := ""
    incidentTypeFilter := none
    yearFilter := none
    sourceFilter := none
    sortField := "incident_date"
    sortDescending := true
    currentPage := 2
    itemsPerPage := 10 }

theorem ungroup_insertGrouped {α : Type} (k : String) (x : α) :
    ∀ g : List (String × List α),
      List.Perm (ungroup (insertGrouped k x g)) (x :: ungroup g)
  | [] => by simp [insertGrouped, ungroup]
  | (k2, xs) :: rest => by
    by_cases hk : k2 = k
    · simp only [insertGrouped, if_pos hk, ungroup, List.append_assoc,
        List.singleton_append]
      exact List.perm_middle
    · simp only [insertGrouped, if_neg hk, ungroup]
      exact ((ungroup_insertGrouped k x rest).append_left xs).trans List.perm_middle

theorem ungroup_groupAux {α : Type} (key : α → String) :
    ∀ (l : List α) (acc : List (String × List α)),
      List.Perm (ungroup (l.foldl (fun g x => insertGrouped (key x) x g) acc))
        (ungroup acc ++ l)
  | [], acc => by simp
  | x :: l, acc => by
    rw [List.foldl_cons]
    exact ((ungroup_groupAux key l (insertGrouped (key x) x acc)).trans
      (((ungroup_insertGrouped (key x) x acc).append_right l).trans
        List.perm_middle.symm))

theorem ungroup_groupByKey {α : Type} (key : α → String) (l : List α) :
    List.Perm (ungroup (groupByKey key l)) l := by
  unfold groupByKey
  have h := ungroup_groupAux key l []
  simpa [ungroup] using h

/-- C10: grouping the incident rows by officer identifier (uid) and,
independently, by case identifier (incident_id), then recombining the
groups, reproduces exactly the original row multiset — no row is dropped
and none is duplicated by either grouping. -/
theorem c10_group_recombine (rows : List DocRow) :
    (↑(ungroup (groupByKey (fun r => r.uid) rows)) : Multiset DocRow) = ↑rows ∧
    (↑(ungroup (groupByKey (fun r => r.incident_id) rows)) : Multiset DocRow) = ↑rows :=
  ⟨Multiset.coe_eq_coe.mpr (ungroup_groupByKey _ rows),
    Multiset.coe_eq_coe.mpr (ungroup_groupByKey _ rows)⟩

theorem getElem?_drop_eq {α : Type} :
    ∀ (l : List α) (s i : Nat), (l.drop s)[i]? = l[s + i]? := by
  intro l s
  induction s generalizing l with
  | zero => intro i; simp
  | succ s ih =>
    intro i
    cases l with
    | nil => simp
    | cons a l =>
      have hidx : s + 1 + i = s + i + 1 := by omega
      rw [List.drop_succ_cons, ih l i, hidx, List.getElem?_cons_succ]

theorem getElem?_take_eq {α : Type} :
    ∀ (l : List α) (n i : Nat), (l.take n)[i]? = if i < n then l[i]? else none := by
  intro l n
  induction n generalizing l with
  | zero => intro i; simp
  | succ n ih =>
    intro i
    cases l with
    | nil => simp
    | cons a l =>
      cases i with
      | zero => simp
      | succ i =>
        rw [List.take_succ_cons, List.getElem?_cons_succ, ih l i,
          List.getElem?_cons_succ]
        simp [Nat.succ_lt_succ_iff]

/-- C9: totalPages is the ceiling of total items over page size, so
page_size * (totalPages - 1) < total_items <= page_size * totalPages (the
strict lower bound read over the integers, since totalPages is 0 on an empty
list), and the 1-based page slice holds exactly the items with indices in
the interval from (p-1)*page_size to p*page_size. -/
theorem c9_pagination {α : Type} (l : List α) (ps p i : Nat)
    (hps : 0 < ps) (hp : 1 ≤ p) :
    (ps : Int) * ((totalPages l.length ps : Int) - 1) < (l.length : Int) ∧
    l.length ≤ ps * totalPages l.length ps ∧
    (paginate l p ps)[i]? = if i < ps then l[(p - 1) * ps + i]? else none := by
  have hd := Nat.div_add_mod (l.length + ps - 1) ps
  have hm := Nat.mod_lt (l.length + ps - 1) hps
  refine ⟨?_, ?_, ?_⟩
  · unfold totalPages
    have hcast : (ps : Int) * ((l.length + ps - 1) / ps : Nat) +
        ((l.length + ps - 1) % ps : Nat) = (l.length : Int) + ps - 1 := by
      have h1 : ((l.length + ps - 1 : Nat) : Int) = (l.length : Int) + ps - 1 := by
        omega
      rw [← h1]
      exact_mod_cast hd
    have hr0 : (0 : Int) ≤ ((l.length + ps - 1) % ps : Nat) := Int.natCast_nonneg _
    nlinarith [hcast, hr0]
  · unfold totalPages
    have hrlt : ((l.length + ps - 1) % ps) < ps := hm
    omega
  · unfold paginate jsSlice
    obtain ⟨q, rfl⟩ : ∃ q, p = q + 1 := ⟨p - 1, by omega⟩
    have hstop : (q + 1) * ps - (q + 1 - 1) * ps = ps := by
      simp only [Nat.add_sub_cancel, Nat.succ_mul, Nat.add_sub_cancel_left]
    rw [hstop, getElem?_take_eq, getElem?_drop_eq]

/-- Concrete instance of the pagination theorem: a 4-element list with page
size 3, page 2, slot 1. -/
theorem c9_pagination_witness :
    (3 : Int) * ((totalPages (List.length [10, 20, 30, 40]) 3 : Int) - 1) <
      (List.length [10, 20, 30, 40] : Int) ∧
    List.length [10, 20, 30, 40] ≤ 3 * totalPages (List.length [10, 20, 30, 40]) 3 ∧
    (paginate [10, 20, 30, 40] 2 3)[1]? =
      if 1 < 3 then [10, 20, 30, 40][(2 - 1) * 3 + 1]? else none :=
  c9_pagination [10, 20, 30, 40] 3 2 1 (by decide) (by decide)

/-- C6 counterexample: toggling the incident-type filter on a state sitting
on page 2 changes the active filter set but leaves the current page at 2,
so a filter change does not reset the page to 1. -/
theorem c6_counterexample :
    (onIncidentTypeToggle caseStateOnPage2 "firearm").incidentTypeFilter ≠
      caseStateOnPage2.incidentTypeFilter ∧
    (onIncidentTypeToggle caseStateOnPage2 "firearm").currentPage ≠ 1 := by
  decide

/-- C6 amended: changing the search term or the page size resets the
current page to 1, while toggling or clearing the discrete
type/year/source filters (and changing the sort) leaves the current page
unchanged. -/
theorem c6_page_reset (s : CaseViewState) (term : String) (n : Nat)
    (t y src f : String) :
    (onSearchChange s term).currentPage = 1 ∧
    (onItemsPerPageChange s n).currentPage = 1 ∧
    (onIncidentTypeToggle s t).currentPage = s.currentPage ∧
    (onYearToggle s y).currentPage = s.currentPage ∧
    (onSourceToggle s src).currentPage = s.currentPage ∧
    (clearAllFilters s).currentPage = s.currentPage ∧
    (handleSort s f).currentPage = s.currentPage := by
  refine ⟨rfl, rfl, rfl, rfl, rfl, rfl, ?_⟩
  unfold handleSort
  split <;> rfl

theorem keyLe_of_eq {α κ : Type} [LinearOrder κ] (key : α → κ) (desc : Bool)
    {a b : α} (h : key a = key b) : keyLe key desc a b := by
  cases desc
  · exact le_of_eq h
  · exact le_of_eq h.symm

theorem filter_orderedInsert_pos {α : Type} (r : α → α → Prop) [DecidableRel r]
    (p : α → Bool) (hpr : ∀ x y, p x = true → p y = true → r x y)
    (a : α) (ha : p a = true) :
    ∀ l : List α, (l.orderedInsert r a).filter p = a :: l.filter p
  | [] => by simp [ha]
  | b :: l => by
    by_cases hrab : r a b
    · rw [List.orderedInsert, if_pos hrab, List.filter_cons, if_pos ha]
    · have hpb : p b = false := by
        cases hb : p b
        · rfl
        · exact absurd (hpr a b ha hb) hrab
      rw [List.orderedInsert, if_neg hrab, List.filter_cons, if_neg (by simp [hpb]),
        filter_orderedInsert_pos r p hpr a ha l, List.filter_cons,
        if_neg (by simp [hpb])]

theorem filter_orderedInsert_neg {α : Type} (r : α → α → Prop) [DecidableRel r]
    (p : α → Bool) (a : α) (ha : p a = false) :
    ∀ l : List α, (l.orderedInsert r a).filter p = l.filter p
  | [] => by simp [ha]
  | b :: l => by
    by_cases hrab : r a b
    · rw [List.orderedInsert, if_pos hrab, List.filter_cons, if_neg (by simp [ha])]
    · rw [List.orderedInsert, if_neg hrab, List.filter_cons,
        filter_orderedInsert_neg r p a ha l, ← List.filter_cons]

theorem filter_insertionSort {α : Type} (r : α → α → Prop) [DecidableRel r]
    (p : α → Bool) (hpr : ∀ x y, p x = true → p y = true → r x y) :
    ∀ l : List α, (l.insertionSort r).filter p = l.filter p
  | [] => rfl
  | a :: l => by
    cases ha : p a
    · rw [List.insertionSort, filter_orderedInsert_neg r p a ha,
        filter_insertionSort r p hpr l, List.filter_cons, if_neg (by simp [ha])]
    · rw [List.insertionSort, filter_orderedInsert_pos r p hpr a ha,
        filter_insertionSort r p hpr l, List.filter_cons, if_pos ha]

/-- C8: the sort of the list views (lodash orderBy on a selected key and
direction, a stable sort) is stable — for every key value, the elements
carrying that key appear in the sorted list exactly as in the input — and
applying the same sort twice yields the same list as applying it once. -/
theorem c8_sorting_stable_idempotent {α κ : Type} [LinearOrder κ]
    (key : α → κ) (desc : Bool) (l : List α) (k : κ) :
    (orderBy key desc l).filter (fun a => key a == k) =
      l.filter (fun a => key a == k) ∧
    orderBy key desc (orderBy key desc l) = orderBy key desc l := by
  constructor
  · apply filter_insertionSort
    intro x y hx hy
    have hx2 : key x = k := by simpa using hx
    have hy2 : key y = k := by simpa using hy
    exact keyLe_of_eq key desc (hx2.trans hy2.symm)
  · exact List.Sorted.insertionSort_eq
      (List.sorted_insertionSort (keyLe key desc) l)

/-- Concrete instance of the sorting theorem: sorting naturals by their
residue mod 3 ascending. -/
theorem c8_sorting_witness :
    (orderBy (fun n : Nat => n % 3) false [5, 2, 8]).filter
        (fun n => n % 3 == 2) =
      List.filter (fun n => n % 3 == 2) [5, 2, 8] ∧
    orderBy (fun n : Nat => n % 3) false
        (orderBy (fun n : Nat => n % 3) false [5, 2, 8]) =
      orderBy (fun n : Nat => n % 3) false [5, 2, 8] :=
  c8_sorting_stable_idempotent (fun n : Nat => n % 3) false [5, 2, 8] 2

theorem searchFrom_err_stop (ds : Datastore) (term : String) (rc : Nat) (c : String)
    (hq : ds.textSearch (buildSearchPhrase term) rc = .err c)
    (h : ¬(c = "57014" ∧ rc < 2)) :
    searchFrom ds term rc =
      { textQueries := 1, metaQueries := 0, matchesSet := none, errorMsg := some c } := by
  conv_lhs => rw [searchFrom.eq_def, hq]
  exact dif_neg h

theorem searchFrom_err_retry (ds : Datastore) (term : String) (rc : Nat)
    (hq : ds.textSearch (buildSearchPhrase term) rc = .err "57014") (h : rc < 2) :
    searchFrom ds term rc =
      { searchFrom ds term (rc + 1) with
        textQueries := (searchFrom ds term (rc + 1)).textQueries + 1 } := by
  conv_lhs => rw [searchFrom.eq_def, hq]
  exact dif_pos ⟨rfl, h⟩

theorem searchFrom_ok_queries (ds : Datastore) (term : String) (rc : Nat)
    (rows : List TextRow)
    (hq : ds.textSearch (buildSearchPhrase term) rc = .ok rows) :
    (searchFrom ds term rc).textQueries = 1 := by
  conv_lhs => rw [searchFrom.eq_def, hq]
  dsimp only
  by_cases h0 : rows.length = 0
  · rw [if_pos h0]
  · rw [if_neg h0]
    cases hmd : ds.metadataBySha1 (jsSetDedup (rows.map (fun r => r.sha1))) with
    | ok m => rfl
    | err c => rfl

theorem searchFrom_queries_two (ds : Datastore) (term : String) :
    (searchFrom ds term 2).textQueries = 1 := by
  cases hq : ds.textSearch (buildSearchPhrase term) 2 with
  | ok rows => exact searchFrom_ok_queries ds term 2 rows hq
  | err c => rw [searchFrom_err_stop ds term 2 c hq (by simp)]

theorem searchFrom_queries_one (ds : Datastore) (term : String) :
    (searchFrom ds term 1).textQueries ≤ 2 := by
  cases hq : ds.textSearch (buildSearchPhrase term) 1 with
  | ok rows => rw [searchFrom_ok_queries ds term 1 rows hq]; omega
  | err c =>
    by_cases hc : c = "57014"
    · subst hc
      rw [searchFrom_err_retry ds term 1 hq (by omega)]
      show (searchFrom ds term 2).textQueries + 1 ≤ 2
      rw [searchFrom_queries_two]
    · rw [searchFrom_err_stop ds term 1 c hq (by simp [hc])]
      show (1 : Nat) ≤ 2
      omega

theorem searchFrom_queries_zero (ds : Datastore) (term : String) :
    (searchFrom ds term 0).textQueries ≤ 3 := by
  cases hq : ds.textSearch (buildSearchPhrase term) 0 with
  | ok rows => rw [searchFrom_ok_queries ds term 0 rows hq]; omega
  | err c =>
    by_cases hc : c = "57014"
    · subst hc
      rw [searchFrom_err_retry ds term 0 hq (by omega)]
      show (searchFrom ds term 1).textQueries + 1 ≤ 3
      have h1 := searchFrom_queries_one ds term
      omega
    · rw [searchFrom_err_stop ds term 0 c hq (by simp [hc])]
      show (1 : Nat) ≤ 3
      omega

/-- C3: searchDocuments issues at most 3 text-search queries; when the
datastore reports the query-timeout code 57014 it is retried at most 2
additional times after the initial attempt — three straight timeouts
surface the error after exactly 3 attempts, and a non-timeout error at any
attempt surfaces immediately with no further retries. -/
theorem c3_timeout_retries (ds : Datastore) (term : String) :
    (searchDocuments ds term).textQueries ≤ 3 ∧
    (3 ≤ term.length →
      (∀ j, j < 3 → ds.textSearch (buildSearchPhrase term) j = .err "57014") →
      searchDocuments ds term =
        { textQueries := 3, metaQueries := 0, matchesSet := none,
          errorMsg := some "57014" }) ∧
    (∀ k c, k < 3 → 3 ≤ term.length →
      (∀ j, j < k → ds.textSearch (buildSearchPhrase term) j = .err "57014") →
      ds.textSearch (buildSearchPhrase term) k = .err c → c ≠ "57014" →
      searchDocuments ds term =
        { textQueries := k + 1, metaQueries := 0, matchesSet := none,
          errorMsg := some c }) := by
  have hterm : ∀ (h3 : 3 ≤ term.length), ¬(term = "" ∨ term.length < 3) := by
    intro h3 hcase
    rcases hcase with rfl | hlt
    · simp at h3
    · omega
  refine ⟨?_, ?_, ?_⟩
  · by_cases hshort : term = "" ∨ term.length < 3
    · unfold searchDocuments
      rw [if_pos hshort]
      exact Nat.zero_le 3
    · unfold searchDocuments
      rw [if_neg hshort]
      exact searchFrom_queries_zero ds term
  · intro h3 hall
    unfold searchDocuments
    rw [if_neg (hterm h3),
      searchFrom_err_retry ds term 0 (hall 0 (by omega)) (by omega),
      searchFrom_err_retry ds term 1 (hall 1 (by omega)) (by omega),
      searchFrom_err_stop ds term 2 "57014" (hall 2 (by omega)) (by simp)]
  · intro k c hk h3 hprev hq hc
    unfold searchDocuments
    rw [if_neg (hterm h3)]
    interval_cases k
    · rw [searchFrom_err_stop ds term 0 c hq (by simp [hc])]
    · rw [searchFrom_err_retry ds term 0 (hprev 0 (by omega)) (by omega),
        searchFrom_err_stop ds term 1 c hq (by simp [hc])]
    · rw [searchFrom_err_retry ds term 0 (hprev 0 (by omega)) (by omega),
        searchFrom_err_retry ds term 1 (hprev 1 (by omega)) (by omega),
        searchFrom_err_stop ds term 2 c hq (by simp [hc])]

/-- Concrete instance of the retry theorem: a datastore that always times
out makes searchDocuments report the timeout after exactly 3 attempts. -/
theorem c3_timeout_witness :
    searchDocuments timeoutDs "abcd" =
      { textQueries := 3, metaQueries := 0, matchesSet := none,
        errorMsg := some "57014" } ∧
    (searchDocuments timeoutDs "abcd").textQueries ≤ 3 :=
  ⟨(c3_timeout_retries timeoutDs "abcd").2.1 (by decide) (fun j _ => rfl),
    (c3_timeout_retries timeoutDs "abcd").1⟩

/-- C4: a search term shorter than 3 characters (the empty term included)
clears the text-match map to empty and returns without issuing any
datastore query and without touching the error state. -/
theorem c4_short_term_no_query (ds : Datastore) (term : String)
    (h : term.length < 3) :
    searchDocuments ds term =
      { textQueries := 0, metaQueries := 0, matchesSet := some [],
        errorMsg := none } := by
  unfold searchDocuments
  rw [if_pos (Or.inr h)]

/-- Concrete instance of the short-term theorem at the term ab. -/
theorem c4_short_term_witness :
    searchDocuments trivialDs "ab" =
      { textQueries := 0, metaQueries := 0, matchesSet := some [],
        errorMsg := none } :=
  c4_short_term_no_query trivialDs "ab" (by decide)

theorem debounceFires_single (wait : Nat) (e : Nat × String) :
    debounceFires wait [e] = [e] := rfl

/-- C7: when the search term changes several times with every consecutive
change less than 300 ms after the previous one, the debounced search fires
exactly once, for the last term entered, so the only response ever applied
to the visible text-match state is the one of that latest term; the
superseded invocations are cancelled before they fire. -/
theorem c7_debounce_latest_only (ds : Datastore) (events : List (Nat × String))
    (e : Nat × String)
    (hchain : List.Chain' (fun a b : Nat × String => b.1 - a.1 < 300) events)
    (hlast : events.getLast? = some e) :
    debounceFires 300 events = [e] ∧
    appliedSearches ds events = [searchDocuments ds e.2] := by
  have h1 : debounceFires 300 events = [e] := by
    induction events generalizing e with
    | nil => simp at hlast
    | cons x rest ih =>
      cases rest with
      | nil =>
        have hx : x = e := by simpa using hlast
        rw [hx]
        exact debounceFires_single 300 e
      | cons y rest2 =>
        have hparts := List.chain'_cons.mp hchain
        rw [debounceFires, if_pos hparts.1]
        exact ih e hparts.2 (by simpa [List.getLast?_cons_cons] using hlast)
  refine ⟨h1, ?_⟩
  unfold appliedSearches
  rw [h1]
  rfl

/-- Concrete instance of the debounce theorem: the inputs ab, abc, abcd
arriving 100 ms apart fire one search, for abcd. -/
theorem c7_debounce_witness :
    debounceFires 300 [(0, "ab"), (100, "abc"), (200, "abcd")] = [(200, "abcd")] ∧
    appliedSearches trivialDs [(0, "ab"), (100, "abc"), (200, "abcd")] =
      [searchDocuments trivialDs "abcd"] :=
  c7_debounce_latest_only trivialDs [(0, "ab"), (100, "abc"), (200, "abcd")]
    (200, "abcd")
    (List.chain'_cons.mpr ⟨by omega,
      List.chain'_cons.mpr ⟨by omega, List.chain'_singleton _⟩⟩)
    rfl

theorem mem_of_mem_uniqByUid :
    ∀ (l : List CaseOfficer) (x : CaseOfficer), x ∈ uniqByUid l → x ∈ l := by
  intro l
  induction l using uniqByUid.induct with
  | case1 =>
    intro x hx
    simp [uniqByUid] at hx
  | case2 y ys ih =>
    intro x hx
    simp only [uniqByUid, List.mem_cons] at hx
    rcases hx with rfl | hx
    · exact List.mem_cons_self _ _
    · exact List.mem_cons_of_mem y (List.mem_of_mem_filter (ih x hx))

theorem uniqByUid_uid_nodup :
    ∀ l : List CaseOfficer, ((uniqByUid l).map (fun o => o.uid)).Nodup := by
  intro l
  induction l using uniqByUid.induct with
  | case1 => simp [uniqByUid]
  | case2 y ys ih =>
    simp only [uniqByUid, List.map_cons, List.nodup_cons]
    refine ⟨?_, ih⟩
    intro hmem
    rcases List.mem_map.mp hmem with ⟨z, hz, hzeq⟩
    have hz2 := mem_of_mem_uniqByUid _ z hz
    have hzne := List.of_mem_filter hz2
    simp at hzne
    exact hzne hzeq

theorem uid_mem_uniqByUid :
    ∀ (l : List CaseOfficer) (o : CaseOfficer), o ∈ l →
      o.uid ∈ (uniqByUid l).map (fun x => x.uid) := by
  intro l
  induction l using uniqByUid.induct with
  | case1 =>
    intro o ho
    simp at ho
  | case2 y ys ih =>
    intro o ho
    simp only [uniqByUid, List.map_cons, List.mem_cons]
    rcases List.mem_cons.mp ho with rfl | ho2
    · exact Or.inl rfl
    · by_cases hu : o.uid = y.uid
      · exact Or.inl hu
      · exact Or.inr (ih o (List.mem_filter.mpr ⟨ho2, by simpa using hu⟩))

theorem length_ungroup {α : Type} :
    ∀ g : List (String × List α),
      (ungroup g).length = (g.map (fun p => p.2.length)).sum
  | [] => rfl
  | p :: g => by simp [ungroup, length_ungroup g]

/-- C2 counterexample: two rows for the same incident naming the same
officer (one per source document) produce a case aggregate whose officer
list holds the uid o1 twice, so the officer list of the aggregate is not
duplicate free. -/
theorem c2_counterexample :
    ((processedCases [docRowA, docRowB]).headI.officers.map (fun o => o.uid)) =
      ["o1", "o1"] ∧
    ¬ ((processedCases [docRowA, docRowB]).headI.officers.map
        (fun o => o.uid)).Nodup := by
  decide

/-- C2 amended: the aggregate's officer list has exactly one entry per
incident row of the group (so a uid may repeat when an officer appears on
several rows of the same incident); the distinct-by-uid officer set is only
computed at render time via uniqBy, whose output lists each uid of the group
at most once and covers every officer of the aggregate. -/
theorem c2_distinct_officers (documents : List DocRow) (c : Case)
    (_hc : c ∈ processedCases documents) (o : CaseOfficer) (ho : o ∈ c.officers) :
    ((processedCases documents).map (fun x => x.officers.length)).sum =
      documents.length ∧
    ((uniqByUid c.officers).map (fun x => x.uid)).Nodup ∧
    o.uid ∈ (uniqByUid c.officers).map (fun x => x.uid) := by
  refine ⟨?_, uniqByUid_uid_nodup c.officers, uid_mem_uniqByUid c.officers o ho⟩
  unfold processedCases
  rw [List.map_map]
  have hfun : ((fun x : Case => x.officers.length) ∘
      (fun g : String × List DocRow => caseOfGroup g.1 g.2)) =
      fun g : String × List DocRow => g.2.length := by
    funext g
    simp [caseOfGroup]
  rw [hfun, ← length_ungroup]
  exact (ungroup_groupByKey (fun d => d.incident_id) documents).length_eq

/-- Concrete instance of the amended C2 theorem on the two-row sample. -/
theorem c2_distinct_officers_witness :
    ((processedCases [docRowA, docRowB]).map (fun x => x.officers.length)).sum = 2 ∧
    ((uniqByUid (processedCases [docRowA, docRowB]).headI.officers).map
        (fun x => x.uid)).Nodup ∧
    ((processedCases [docRowA, docRowB]).headI.officers.headI).uid ∈
      (uniqByUid (processedCases [docRowA, docRowB]).headI.officers).map
        (fun x => x.uid) :=
  c2_distinct_officers [docRowA, docRowB]
    ((processedCases [docRowA, docRowB]).headI) (by decide)
    ((processedCases [docRowA, docRowB]).headI.officers.headI) (by decide)

theorem headI_mem {α : Type} [Inhabited α] {l : List α} (h : l ≠ []) :
    l.headI ∈ l := by
  cases l with
  | nil => exact absurd rfl h
  | cons a t => exact List.mem_cons_self a t

theorem minByStart_go :
    ∀ (rest : List PostRecord) (q : PostRecord),
      ((rest.foldl
          (fun acc p =>
            match acc with
            | none => some p
            | some q2 =>
              if p.start_date < q2.start_date then some p else some q2)
          (some q)).map (fun p => p.start_date)) =
      some (rest.foldl (fun m r => min m r.start_date) q.start_date)
  | [], _ => rfl
  | r :: rest, q => by
    simp only [List.foldl_cons]
    rcases le_total q.start_date r.start_date with hle | hle
    · rw [min_eq_left hle, if_neg (not_lt.mpr hle)]
      exact minByStart_go rest q
    · by_cases hlt : r.start_date < q.start_date
      · rw [min_eq_right hle, if_pos hlt]
        exact minByStart_go rest r
      · have heq : q.start_date = r.start_date := le_antisymm (not_lt.mp hlt) hle
        rw [min_eq_right hle, if_neg hlt, ← heq]
        exact minByStart_go rest q

theorem minByStart_map_start :
    ∀ l : List PostRecord,
      (minByStart l).map (fun p => p.start_date) = specMinStartDate l
  | [] => rfl
  | q :: rest => by
    unfold minByStart specMinStartDate
    rw [List.foldl_cons]
    exact minByStart_go rest q

theorem foldl_min_mem :
    ∀ (rest : List PostRecord) (a : String),
      rest.foldl (fun m r => min m r.start_date) a = a ∨
      rest.foldl (fun m r => min m r.start_date) a ∈
        rest.map (fun p => p.start_date)
  | [], _ => Or.inl rfl
  | r :: rest, a => by
    rw [List.foldl_cons]
    simp only [List.map_cons, List.mem_cons]
    rcases foldl_min_mem rest (min a r.start_date) with h | h
    · rw [h]
      rcases le_total a r.start_date with hle | hle
      · rw [min_eq_left hle]
        exact Or.inl rfl
      · rw [min_eq_right hle]
        exact Or.inr (Or.inl rfl)
    · exact Or.inr (Or.inr h)

theorem foldl_min_of_le :
    ∀ (rest : List PostRecord) (a : String),
      (∀ q ∈ rest, a ≤ q.start_date) →
      rest.foldl (fun m r => min m r.start_date) a = a
  | [], _, _ => rfl
  | r :: rest, a, h => by
    rw [List.foldl_cons, min_eq_left (h r (List.mem_cons_self r rest))]
    exact foldl_min_of_le rest a (fun q hq => h q (List.mem_cons_of_mem r hq))

theorem serviceStart_eq (l : List PostRecord) :
    (if l.length > 0 then
        jsOrNull ((minByStart l).map (fun p => p.start_date))
      else none) =
    jsOrNull (specMinStartDate l) := by
  cases l with
  | nil => rfl
  | cons q rest =>
    rw [if_pos (by simp), minByStart_map_start]

theorem processOfficerGroup_serviceStart (posts : List PostRecord) (uid : String)
    (incidents : List DocRow) :
    (processOfficerGroup posts uid incidents).serviceStartDate =
      jsOrNull (specMinStartDate (processOfficerGroup posts uid incidents).postHistory) := by
  unfold processOfficerGroup
  dsimp only
  exact serviceStart_eq _

theorem sorted_head_min (s : List PostRecord)
    (hsorted : List.Sorted (keyLe (fun p : PostRecord => p.start_date) false) s) :
    (if s.length > 0 then some s.headI.start_date else none) =
    specMinStartDate s := by
  cases s with
  | nil => rfl
  | cons q rest =>
    rw [if_pos (by simp)]
    unfold specMinStartDate
    dsimp [List.headI]
    congr 1
    symm
    apply foldl_min_of_le
    intro p hp
    exact List.rel_of_sorted_cons hsorted p hp

theorem processOfficerGroupCard_serviceStart (posts : List PostRecord)
    (uid : String) (incidents : List DocRow) :
    (processOfficerGroupCard posts uid incidents).serviceStartDate =
      specMinStartDate (processOfficerGroupCard posts uid incidents).postHistory := by
  unfold processOfficerGroupCard
  dsimp only
  exact sorted_head_min _ (List.sorted_insertionSort _ _)

/-- C5 counterexample: an officer whose only resolved post record carries an
empty-string start_date has a nonempty post history but a null
serviceStartDate (the code's `|| null` collapses the falsy minimum), so
serviceStartDate is not null exactly when the history is empty, and does
not equal the minimum start date of the history. -/
theorem c5_counterexample :
    (processedOfficers [docRowA] [postEmptyStart]).headI.postHistory ≠ [] ∧
    (processedOfficers [docRowA] [postEmptyStart]).headI.serviceStartDate = none := by
  decide

/-- C5 amended: in the OfficerList roster aggregation serviceStartDate is
the minimum start_date over the officer's resolved post history with the
empty-string minimum collapsed to null by the `|| null` fallback; when no
resolved start_date is the empty string it is null exactly when the history
is empty.  The card-based roster variant equals the minimum exactly. -/
theorem c5_service_start (documents : List DocRow) (posts : List PostRecord)
    (o o2 : Officer)
    (ho : o ∈ processedOfficers documents posts)
    (ho2 : o2 ∈ processedOfficersCard documents posts)
    (hne : ∀ p ∈ o.postHistory, p.start_date ≠ "") :
    o.serviceStartDate = jsOrNull (specMinStartDate o.postHistory) ∧
    (o.serviceStartDate = none ↔ o.postHistory = []) ∧
    o2.serviceStartDate = specMinStartDate o2.postHistory := by
  rcases List.mem_map.mp ho with ⟨g, hg, rfl⟩
  rcases List.mem_map.mp ho2 with ⟨g2, hg2, rfl⟩
  have h1 := processOfficerGroup_serviceStart posts g.1 g.2
  refine ⟨h1, ?_, processOfficerGroupCard_serviceStart posts g2.1 g2.2⟩
  constructor
  · intro hnone
    by_contra hne2
    cases hh : (processOfficerGroup posts g.1 g.2).postHistory with
    | nil => exact hne2 hh
    | cons q rest =>
      have hmin : specMinStartDate (processOfficerGroup posts g.1 g.2).postHistory =
          some (rest.foldl (fun m r => min m r.start_date) q.start_date) := by
        rw [hh]
        rfl
      have hmem := foldl_min_mem rest q.start_date
      have hmne : rest.foldl (fun m r => min m r.start_date) q.start_date ≠ "" := by
        rcases hmem with he | he
        · rw [he]
          exact hne q (by rw [hh]; exact List.mem_cons_self q rest)
        · rcases List.mem_map.mp he with ⟨p, hp, hpe⟩
          rw [← hpe]
          exact hne p (by rw [hh]; exact List.mem_cons_of_mem q hp)
      rw [h1, hmin] at hnone
      simp [jsOrNull, hmne] at hnone
  · intro hnil
    rw [h1, hnil]
    rfl

/-- Concrete instance of the amended C5 theorem on the single-post sample. -/
theorem c5_service_start_witness :
    (processedOfficers [docRowA] [postClosed]).headI.serviceStartDate =
      jsOrNull (specMinStartDate
        (processedOfficers [docRowA] [postClosed]).headI.postHistory) ∧
    ((processedOfficers [docRowA] [postClosed]).headI.serviceStartDate = none ↔
      (processedOfficers [docRowA] [postClosed]).headI.postHistory = []) ∧
    (processedOfficersCard [docRowA] [postClosed]).headI.serviceStartDate =
      specMinStartDate
        (processedOfficersCard [docRowA] [postClosed]).headI.postHistory :=
  c5_service_start [docRowA] [postClosed]
    ((processedOfficers [docRowA] [postClosed]).headI)
    ((processedOfficersCard [docRowA] [postClosed]).headI)
    (headI_mem (by decide)) (headI_mem (by decide)) (by decide)

/-- C1: the officer roster aggregation (OfficerList.tsx) sets currentPost to
the most recent post by start date even when that span has ended: on an
officer whose only resolved post has end date 2020-01-01, the roster
aggregate's currentPost is that closed post (its end_date is not null),
while the case-drill-down path (handleOfficerFromCase), which implements
the documented rule, derives null for the same data. -/
theorem c1_currentPost_divergence :
    ((processedOfficers [docRowA] [postClosed]).headI.currentPost.map
        (fun p => p.end_date)) = some (some "2020-01-01") ∧
    (officerFromCase "o1" [docRowA] [postClosed]).currentPost = none := by
  decide

end SFPD
